import Mathlib

/-!
Shallow embedding of the peercode undirected-graph container
(CME212-style `Graph.hpp` homework implementations) and proofs of the
specification claims about it.

Four C++ implementations are embedded:
  * `hw1/Graph-26021.hpp` — adjacency-list design (prefix `Hw1` / suffix `Hw1`);
  * `hw0/Graph-1703.hpp`  — explicit edge list storing Node handles (`G1703`);
  * `hw0/Graph-20862.hpp` — explicit list of index pairs (`G862`);
  * `hw0/Graph-20558.hpp` — explicit edge list (`G20558`, nodes only needed).

C++ pointers to a `Graph` object are modelled by a numeric graph identity
`gid : Nat` carried by every graph and handle; a null pointer is `none` in
an `Option Nat` where the source can produce one.  `size_type` is
`unsigned` (32 bit); all counts stay far below `2^32` in every statement
here, so sizes and indices are modelled as `Nat`, with the concrete value
`4294967295` standing for `size_type(-1)`.  A C++ `assert` is modelled by
an `Option` result (`none` = assertion failure / abort).  An out-of-bounds
`std::vector` access (undefined behaviour in the source) is modelled by
`Option`/`List.getD`; comments mark each such place.
-/

/-- A Node handle of the hw1 design: `m_graph_ptr` (as a graph identity)
and `m_node_index`.  The 1703 and 20558 designs use the same layout
(`g_`/`uid_`, `m_ptr_graph`/`m_index`), so the type is shared. -/
structure NodeH where
  gid : Nat
  idx : Nat
deriving DecidableEq, Repr

/-- An Edge handle of the hw1 design: `m_graph_ptr`, `m_node1_index`,
`m_node2_index`.  The hw1 code only ever constructs edges through the
three-argument constructor. -/
structure EdgeHw1 where
  gid : Nat
  n1 : Nat
  n2 : Nat
deriving DecidableEq, Repr

/-- The `internal_node` record of hw1: `m_node_point` and `m_node_value`.
The position and payload types are opaque parameters. -/
structure InternalNodeHw1 (P V : Type) where
  point : P
  value : V
deriving DecidableEq, Repr

/-- The hw1 graph state: `m_graph_nodes` and the adjacency 2D-vector
`m_adjacency`, plus the graph identity standing for the object's address. -/
structure GraphHw1 (P V : Type) where
  gid : Nat
  graphNodes : List (InternalNodeHw1 P V)
  adjacency : List (List Nat)
deriving DecidableEq, Repr

/-- The empty hw1 graph (default constructor). -/
def emptyHw1 (P V : Type) (gid : Nat) : GraphHw1 P V :=
  { gid := gid, graphNodes := [], adjacency := [] }

/-- Models `Graph::size()`: `m_graph_nodes.size()`. -/
def sizeHw1 (g : GraphHw1 P V) : Nat :=
  g.graphNodes.length

/-- Models `Graph::num_nodes()`: synonym for `size()`. -/
def numNodesHw1 (g : GraphHw1 P V) : Nat :=
  sizeHw1 g

/-- Models hw1 `Graph::add_node`: push the record, push an empty adjacency
row, return `Node(this, size() - 1)` (`size()` read after the push). -/
def addNodeHw1 (g : GraphHw1 P V) (p : P) (v : V) : GraphHw1 P V × NodeH :=
  let g2 : GraphHw1 P V :=
    { g with graphNodes := g.graphNodes ++ [{ point := p, value := v }],
             adjacency := g.adjacency ++ [[]] }
  (g2, { gid := g.gid, idx := sizeHw1 g2 - 1 })

/-- Models hw1 `Graph::has_node`: `assert(n.m_node_index < size())` then
`return n.m_graph_ptr == this`.  `none` is the assertion firing. -/
def hasNodeHw1 (g : GraphHw1 P V) (n : NodeH) : Option Bool :=
  if n.idx < sizeHw1 g then some (n.gid == g.gid) else none

/-- Models hw1 `Graph::node(i)`: `assert(i < size())` then
`Node(this, i)`. -/
def nodeHw1 (g : GraphHw1 P V) (i : Nat) : Option NodeH :=
  if i < sizeHw1 g then some { gid := g.gid, idx := i } else none

/-- Models hw1 `Node::operator==` evaluated on a handle `m` whose
`m_graph_ptr` points at the graph object `g` (so `m.gid = g.gid` in every
use): `m_graph_ptr->has_node(n) && m_node_index == n.index()`.  The
assertion inside `has_node` is propagated as `none`. -/
def nodeEqHw1 (g : GraphHw1 P V) (m n : NodeH) : Option Bool :=
  match hasNodeHw1 g n with
  | none => none
  | some b => some (b && (m.idx == n.idx))

/-- Models hw1 `Graph::num_edges()`: sum of all adjacency row sizes,
divided by two (unsigned division). -/
def numEdgesHw1 (g : GraphHw1 P V) : Nat :=
  (g.adjacency.map List.length).sum / 2

/-- Models hw1 `Graph::has_edge(a, b)`: reject foreign graphs, then scan
`m_adjacency[a.index()]` for `b.index()`.  The source indexes the
adjacency vector unchecked; `List.getD _ _ []` models the access (the
claims only apply it to in-range nodes). -/
def hasEdgeHw1 (g : GraphHw1 P V) (a b : NodeH) : Bool :=
  if a.gid != g.gid || b.gid != g.gid then false
  else (g.adjacency.getD a.idx []).contains b.idx

/-- Models hw1 `Graph::add_edge(a, b)`: when both handles point at this
graph and `b.index()` already occurs in `a`'s adjacency row, return
`Edge(this, a.index(), b.index())` without mutating; otherwise (including
when the ownership test fails) push `a.index()` onto `b`'s row, then
`b.index()` onto `a`'s row, and return `Edge(this, a.index(), b.index())`.
`List.set` models the unchecked `m_adjacency[...]` write. -/
def addEdgeHw1 (g : GraphHw1 P V) (a b : NodeH) : GraphHw1 P V × EdgeHw1 :=
  if (a.gid == g.gid && b.gid == g.gid)
      && (g.adjacency.getD a.idx []).contains b.idx then
    (g, { gid := g.gid, n1 := a.idx, n2 := b.idx })
  else
    let adj1 := g.adjacency.set b.idx ((g.adjacency.getD b.idx []) ++ [a.idx])
    let adj2 := adj1.set a.idx ((adj1.getD a.idx []) ++ [b.idx])
    ({ g with adjacency := adj2 }, { gid := g.gid, n1 := a.idx, n2 := b.idx })

/-- Models hw1 `Graph::clear()`: clear both vectors. -/
def clearHw1 (g : GraphHw1 P V) : GraphHw1 P V :=
  { g with graphNodes := [], adjacency := [] }

/-- Models hw1 `Edge::node1()`: `Node(m_graph_ptr, m_node1_index)`. -/
def edgeNode1Hw1 (e : EdgeHw1) : NodeH :=
  { gid := e.gid, idx := e.n1 }

/-- Models hw1 `Edge::node2()`: `Node(m_graph_ptr, m_node2_index)`. -/
def edgeNode2Hw1 (e : EdgeHw1) : NodeH :=
  { gid := e.gid, idx := e.n2 }

/-- Short-circuit conjunction over assertion-carrying Booleans: the second
operand is only evaluated when the first is `some true`, exactly as C++
`&&` only evaluates (and only triggers assertions in) its right operand
when the left is true. -/
def optAnd (x : Option Bool) (y : Unit → Option Bool) : Option Bool :=
  match x with
  | none => none
  | some false => some false
  | some true => y ()

/-- Short-circuit disjunction over assertion-carrying Booleans, matching
C++ `||`. -/
def optOr (x : Option Bool) (y : Unit → Option Bool) : Option Bool :=
  match x with
  | none => none
  | some true => some true
  | some false => y ()

/-- Models hw1 `Edge::operator==`, evaluated on an edge `d` whose
`m_graph_ptr` points at the graph object `g`:
`(node1()==e.node1() && node2()==e.node2()) ||
 (node1()==e.node2() && node2()==e.node1())`.
Each `Node::operator==` runs on a receiver owned by `g`, so its
`has_node` assertion checks the argument index against `g`. -/
def edgeEqHw1 (g : GraphHw1 P V) (d e : EdgeHw1) : Option Bool :=
  optOr
    (optAnd (nodeEqHw1 g (edgeNode1Hw1 d) (edgeNode1Hw1 e))
      (fun _ => nodeEqHw1 g (edgeNode2Hw1 d) (edgeNode2Hw1 e)))
    (fun _ =>
      optAnd (nodeEqHw1 g (edgeNode1Hw1 d) (edgeNode2Hw1 e))
        (fun _ => nodeEqHw1 g (edgeNode2Hw1 d) (edgeNode1Hw1 e)))

/-- Inner while-loop of hw1 `EdgeIterator::operator++`: scan the columns
of row `i` for the first entry strictly greater than `i` (the
lesser-endpoint emission test).  The first argument list is the remaining
column suffix `row.drop j`; `j` is the absolute column index, returned on
a hit, `none` when the row is exhausted. -/
def seekCols (i : Nat) : List Nat → Nat → Option Nat
  | [], _ => none
  | c :: rest, j => if i < c then some j else seekCols i rest (j + 1)

/-- Outer while-loop of hw1 `EdgeIterator::operator++`: the first argument
is the remaining row suffix `adj.drop i`.  Each row is scanned from column
`j` (reset to 0 after the first row, as the source does); when the rows
are exhausted the cursor is `(adj.length, 0)` — or the incoming position
when the loop body never ran. -/
def seekRows : List (List Nat) → Nat → Nat → Nat × Nat
  | [], i, j => (i, j)
  | row :: rest, i, j =>
    match seekCols i (row.drop j) j with
    | some j2 => (i, j2)
    | none => seekRows rest (i + 1) 0

/-- Models hw1 `EdgeIterator::operator++`: `++m_edge_index` followed by
the nested seek loops. -/
def edgeIncrHw1 (adj : List (List Nat)) (p : Nat × Nat) : Nat × Nat :=
  seekRows (adj.drop p.1) p.1 (p.2 + 1)

/-- Models hw1 `Graph::edge_begin()`: `EdgeIterator(this, 0, 0)` — note
the source performs no initial seek past entries failing the
lesser-endpoint test. -/
def edgeBeginHw1 : Nat × Nat :=
  (0, 0)

/-- Models hw1 `Graph::edge_end()`: `EdgeIterator(this, m_adjacency.size(), 0)`. -/
def edgeEndHw1 (adj : List (List Nat)) : Nat × Nat :=
  (adj.length, 0)

/-- Models hw1 `EdgeIterator::operator*`: `Edge(graph, i, m_adjacency[i][j])`
as the endpoint index pair; `none` models the out-of-bounds vector access
(undefined behaviour in the source) when the position is not a valid
adjacency slot. -/
def edgeDerefHw1 (adj : List (List Nat)) (p : Nat × Nat) : Option (Nat × Nat) :=
  match adj.get? p.1 with
  | some row =>
    match row.get? p.2 with
    | some v => some (p.1, v)
    | none => none
  | none => none

/-- The standard consumption of the iterator range: while the cursor
differs from `edge_end()`, record the position and apply `operator++`.
The fuel argument bounds the number of loop iterations; `edgeIterFuel`
below supplies enough fuel for the loop of the source to finish. -/
def edgeIterListHw1 (adj : List (List Nat)) : Nat → Nat × Nat → List (Nat × Nat)
  | 0, _ => []
  | fuel + 1, p =>
    if p = edgeEndHw1 adj then []
    else p :: edgeIterListHw1 adj fuel (edgeIncrHw1 adj p)

/-- Fuel bound for the enumeration: every `operator++` application either
leaves the range or strictly advances, so one unit per adjacency slot plus
one per row plus one suffices. -/
def edgeIterFuel (adj : List (List Nat)) : Nat :=
  (adj.map List.length).sum + adj.length + 1

/-- The full position sequence produced by enumerating
`edge_begin() .. edge_end()` of hw1. -/
def edgePositionsHw1 (adj : List (List Nat)) : List (Nat × Nat) :=
  edgeIterListHw1 adj (edgeIterFuel adj) edgeBeginHw1

/-- An Edge handle of the 1703 design.  `Edge()` leaves all members
uninitialized (indeterminate in C++), modelled by the `invalid`
constructor; valid edges carry `g_`, `edgeid_`, `node_a_`, `node_b_`. -/
inductive EdgeG1703 where
  | invalid : EdgeG1703
  | valid (gid edgeid na nb : Nat) : EdgeG1703
deriving DecidableEq, Repr

/-- The `internal_nodes` record of 1703: position and `uid`. -/
structure InternalNodeG1703 (P : Type) where
  position : P
  uid : Nat
deriving DecidableEq, Repr

/-- The `internal_edges` record of 1703: two stored Node handles and an
`edgeid`. -/
structure InternalEdgeG1703 where
  nodeA : NodeH
  nodeB : NodeH
  edgeid : Nat
deriving DecidableEq, Repr

/-- The 1703 graph state: `nodes_`, `edges_`, and the graph identity. -/
structure GraphG1703 (P : Type) where
  gid : Nat
  nodes : List (InternalNodeG1703 P)
  edges : List InternalEdgeG1703
deriving DecidableEq, Repr

/-- The empty 1703 graph. -/
def emptyG1703 (P : Type) (gid : Nat) : GraphG1703 P :=
  { gid := gid, nodes := [], edges := [] }

/-- Models 1703 `Graph::size()`. -/
def sizeG1703 (g : GraphG1703 P) : Nat :=
  g.nodes.length

/-- Models 1703 `Graph::num_nodes()`. -/
def numNodesG1703 (g : GraphG1703 P) : Nat :=
  sizeG1703 g

/-- Models 1703 `Graph::num_edges()`: `edges_.size()`. -/
def numEdgesG1703 (g : GraphG1703 P) : Nat :=
  g.edges.length

/-- Models 1703 `Graph::add_node`: record `{position, uid = size()}` is
built, pushed, and `Node(this, uid)` returned (`size()` read before the
push). -/
def addNodeG1703 (g : GraphG1703 P) (p : P) : GraphG1703 P × NodeH :=
  let uid := sizeG1703 g
  ({ g with nodes := g.nodes ++ [{ position := p, uid := uid }] },
   { gid := g.gid, idx := uid })

/-- Models 1703 `Graph::has_node`: `n.g_ == this`, with no bounds check. -/
def hasNodeG1703 (g : GraphG1703 P) (n : NodeH) : Bool :=
  n.gid == g.gid

/-- Models 1703 `Graph::node(i)`: out-of-range returns the
default-constructed `Node()` (members indeterminate), modelled as `none`. -/
def nodeG1703 (g : GraphG1703 P) (i : Nat) : Option NodeH :=
  if i < sizeG1703 g then some { gid := g.gid, idx := i } else none

/-- Models 1703 `Node::operator==`: `n.g_ == this->g_ && n.uid_ == this->uid_`
— raw member comparison, total. -/
def nodeEqG1703 (m n : NodeH) : Bool :=
  n.gid == m.gid && n.idx == m.idx

/-- Models 1703 `Node::index()`: `g_->nodes_[uid_].uid`.  The vector access
is unchecked in the source; out of range is undefined behaviour, modelled
by defaulting the record (comment: all claim uses are in range, where the
stored `uid` equals the storage position by construction). -/
def nodeIndexG1703 (g : GraphG1703 P) (n : NodeH) : Nat :=
  ((g.nodes.get? n.idx).map (fun r => r.uid)).getD 4294967295

/-- Models 1703 `Edge::operator==`: `e.edgeid_ == this->edgeid_` — only
the edge identifiers are compared, the graph pointers are ignored.
Comparing a default-constructed edge reads an indeterminate member
(`none`). -/
def edgeEqG1703 : EdgeG1703 → EdgeG1703 → Option Bool
  | EdgeG1703.valid _ id1 _ _, EdgeG1703.valid _ id2 _ _ => some (id1 == id2)
  | _, _ => none

/-- The body of the 1703 duplicate-edge scan: an edge record matches the
pair `(a, b)` when its stored handles equal `a, b` in either order, under
`Node::operator==`. -/
def edgeMatchG1703 (a b : NodeH) (r : InternalEdgeG1703) : Bool :=
  (nodeEqG1703 r.nodeA a && nodeEqG1703 r.nodeB b)
    || (nodeEqG1703 r.nodeB a && nodeEqG1703 r.nodeA b)

/-- Models 1703 `Graph::has_edge`: foreign handles give false, otherwise a
linear scan of `edges_` with `edgeMatchG1703`. -/
def hasEdgeG1703 (g : GraphG1703 P) (a b : NodeH) : Bool :=
  if a.gid != g.gid || b.gid != g.gid then false
  else g.edges.any (edgeMatchG1703 a b)

/-- Models 1703 `Graph::add_edge`:
if `a == b`, return `Edge()` (the invalid sentinel);
else if `has_edge(a,b)`, rescan and return `Edge(this, i, a.index(), b.index())`
at the matching list position `i`;
else push `{node_a = a, node_b = b, edgeid = size()}` — note the source
sets `edgeid` from `size()`, the NODE count — and return
`Edge(this, edgeid, a.index(), b.index())`.
The trailing `return Edge()` of the source is the `none` branch of the
rescan (unreachable when `has_edge` holds). -/
def addEdgeG1703 (g : GraphG1703 P) (a b : NodeH) : GraphG1703 P × EdgeG1703 :=
  if nodeEqG1703 a b then (g, EdgeG1703.invalid)
  else if hasEdgeG1703 g a b then
    match g.edges.findIdx? (edgeMatchG1703 a b) with
    | some i =>
      (g, EdgeG1703.valid g.gid i (nodeIndexG1703 g a) (nodeIndexG1703 g b))
    | none => (g, EdgeG1703.invalid)
  else
    let eid := sizeG1703 g
    ({ g with edges := g.edges ++ [{ nodeA := a, nodeB := b, edgeid := eid }] },
     EdgeG1703.valid g.gid eid (nodeIndexG1703 g a) (nodeIndexG1703 g b))

/-- Models 1703 `Graph::edge(i)`: out of range gives `Edge()` (invalid),
otherwise `Edge(this, i, edges_[i].node_a.index(), edges_[i].node_b.index())`. -/
def edgeG1703 (g : GraphG1703 P) (i : Nat) : EdgeG1703 :=
  match g.edges.get? i with
  | some r =>
    EdgeG1703.valid g.gid i (nodeIndexG1703 g r.nodeA) (nodeIndexG1703 g r.nodeB)
  | none => EdgeG1703.invalid

/-- Models 1703 `Graph::clear()`: clear `edges_` then `nodes_`. -/
def clearG1703 (g : GraphG1703 P) : GraphG1703 P :=
  { g with nodes := [], edges := [] }

/-- A Node handle of the 20862 design: `graph` pointer (may be null,
modelled by `none`) and `id`.  `Node()` sets `id = size_type(-1)` and
`graph = nullptr`. -/
structure NodeG862 where
  graph : Option Nat
  id : Nat
deriving DecidableEq, Repr

/-- The default-constructed 20862 Node: the explicit invalid sentinel. -/
def invalidNodeG862 : NodeG862 :=
  { graph := none, id := 4294967295 }

/-- An Edge handle of the 20862 design: `graph` pointer and `id`;
`Edge()` sets `id = size_type(-1)` and `graph = nullptr`. -/
structure EdgeG862 where
  graph : Option Nat
  id : Nat
deriving DecidableEq, Repr

/-- The default-constructed 20862 Edge: the explicit invalid sentinel. -/
def invalidEdgeG862 : EdgeG862 :=
  { graph := none, id := 4294967295 }

/-- The 20862 graph state: `Points` and `Edges` (a list of index pairs),
plus the graph identity. -/
structure GraphG862 (P : Type) where
  gid : Nat
  points : List P
  edgePairs : List (Nat × Nat)
deriving DecidableEq, Repr

/-- The empty 20862 graph (the constructor only reserves capacity). -/
def emptyG862 (P : Type) (gid : Nat) : GraphG862 P :=
  { gid := gid, points := [], edgePairs := [] }

/-- Models 20862 `Graph::size()`. -/
def sizeG862 (g : GraphG862 P) : Nat :=
  g.points.length

/-- Models 20862 `Graph::num_nodes()`. -/
def numNodesG862 (g : GraphG862 P) : Nat :=
  sizeG862 g

/-- Models 20862 `Graph::num_edges()`: `Edges.size()`. -/
def numEdgesG862 (g : GraphG862 P) : Nat :=
  g.edgePairs.length

/-- Models 20862 `Graph::node(i)`: out of range (`i >= Points.size()`)
prints a diagnostic (a side effect not modelled) and returns `Node()`;
otherwise `Node(i, this)`. -/
def nodeG862 (g : GraphG862 P) (i : Nat) : NodeG862 :=
  if i < sizeG862 g then { graph := some g.gid, id := i } else invalidNodeG862

/-- Models 20862 `Graph::add_node`: push the position, return
`node(Points.size() - 1)`. -/
def addNodeG862 (g : GraphG862 P) (p : P) : GraphG862 P × NodeG862 :=
  let g2 : GraphG862 P := { g with points := g.points ++ [p] }
  (g2, nodeG862 g2 (g2.points.length - 1))

/-- Models 20862 `Node::operator==`:
`n.graph == this->graph && n.index() == this->id` — raw member
comparison, total. -/
def nodeEqG862 (m n : NodeG862) : Bool :=
  n.graph == m.graph && n.id == m.id

/-- Models 20862 `Graph::has_node`: the first branch's store is dead (it
is unconditionally overwritten); the returned value is
`this->node(n.index()) == n`. -/
def hasNodeG862 (g : GraphG862 P) (n : NodeG862) : Bool :=
  nodeEqG862 (nodeG862 g n.id) n

/-- Models 20862 `Graph::edge(i)`: the guard is `i > Edges.size()` — a
strict comparison, so `i = Edges.size()` (one past the end) produces the
non-sentinel `Edge(i, this)`. -/
def edgeG862 (g : GraphG862 P) (i : Nat) : EdgeG862 :=
  if i > numEdgesG862 g then invalidEdgeG862 else { graph := some g.gid, id := i }

/-- Models 20862 `Edge::node1()`: reads `graph->Edges[id]` — `none`
models the out-of-bounds vector access (undefined behaviour) — then
`graph->node(pair.first)`.  `g` is the graph object the handle's pointer
designates. -/
def edgeNode1G862 (g : GraphG862 P) (e : EdgeG862) : Option NodeG862 :=
  (g.edgePairs.get? e.id).map (fun pr => nodeG862 g pr.1)

/-- Models 20862 `Edge::node2()`. -/
def edgeNode2G862 (g : GraphG862 P) (e : EdgeG862) : Option NodeG862 :=
  (g.edgePairs.get? e.id).map (fun pr => nodeG862 g pr.2)

/-- Models 20862 `Graph::has_edge`: search `Edges` for `(a.index(), b.index())`
then for `(b.index(), a.index())`. -/
def hasEdgeG862 (g : GraphG862 P) (a b : NodeG862) : Bool :=
  g.edgePairs.contains (a.id, b.id) || g.edgePairs.contains (b.id, a.id)

/-- Models 20862 `Graph::add_edge`:
`pos1` searches for `(a.index(), b.index())`, `pos2` for the reverse pair.
When `pos1` hits, return `edge(pos1 - begin)`.  When only `pos2` hits, the
source still computes `pos1 - Edges.begin()` — `pos1` is the end iterator,
so the index is `Edges.size()` — and returns `edge(Edges.size())`.
Otherwise push `(a.index(), b.index())` and return `edge(Edges.size() - 1)`. -/
def addEdgeG862 (g : GraphG862 P) (a b : NodeG862) : GraphG862 P × EdgeG862 :=
  let e1 : Nat × Nat := (a.id, b.id)
  let e2 : Nat × Nat := (b.id, a.id)
  match g.edgePairs.findIdx? (fun pr => pr == e1) with
  | some k => (g, edgeG862 g k)
  | none =>
    match g.edgePairs.findIdx? (fun pr => pr == e2) with
    | some _ => (g, edgeG862 g g.edgePairs.length)
    | none =>
      let g2 : GraphG862 P := { g with edgePairs := g.edgePairs ++ [e1] }
      (g2, edgeG862 g2 (g2.edgePairs.length - 1))

/-- Models 20862 `Graph::clear()`. -/
def clearG862 (g : GraphG862 P) : GraphG862 P :=
  { g with points := [], edgePairs := [] }

/-- The `internal_node` record of 20558 holds only the position. -/
structure InternalNodeG20558 (P : Type) where
  point : P
deriving DecidableEq, Repr

/-- The `internal_edge` record of 20558: two stored Node handles. -/
structure InternalEdgeG20558 where
  node1 : NodeH
  node2 : NodeH
deriving DecidableEq, Repr

/-- The 20558 graph state: `m_graph_nodes`, `m_graph_edges`, graph identity. -/
structure GraphG20558 (P : Type) where
  gid : Nat
  graphNodes : List (InternalNodeG20558 P)
  graphEdges : List InternalEdgeG20558
deriving DecidableEq, Repr

/-- The empty 20558 graph. -/
def emptyG20558 (P : Type) (gid : Nat) : GraphG20558 P :=
  { gid := gid, graphNodes := [], graphEdges := [] }

/-- Models 20558 `Graph::size()`. -/
def sizeG20558 (g : GraphG20558 P) : Nat :=
  g.graphNodes.length

/-- Models 20558 `Graph::num_nodes()`. -/
def numNodesG20558 (g : GraphG20558 P) : Nat :=
  sizeG20558 g

/-- Models 20558 `Graph::add_node`: push the record, read `i = size()`
after the push, return `Node(i - 1, this)`. -/
def addNodeG20558 (g : GraphG20558 P) (p : P) : GraphG20558 P × NodeH :=
  let g2 : GraphG20558 P := { g with graphNodes := g.graphNodes ++ [{ point := p }] }
  let i := sizeG20558 g2
  (g2, { gid := g.gid, idx := i - 1 })

/-- Evaluation of `optAnd` when both operands complete. -/
lemma optAnd_some (x : Bool) (f : Unit → Option Bool) (y : Bool)
    (h : f () = some y) : optAnd (some x) f = some (x && y) := by
  cases x <;> simp [optAnd, h]

/-- Evaluation of `optOr` when both operands complete. -/
lemma optOr_some (x : Bool) (f : Unit → Option Bool) (y : Bool)
    (h : f () = some y) : optOr (some x) f = some (x || y) := by
  cases x <;> simp [optOr, h]

/-- A fresh hw1 graph after exactly two `add_node` calls and no
`add_edge` call: two nodes, zero edges, both adjacency rows empty. -/
def twoNodesHw1 : GraphHw1 Unit Unit :=
  (addNodeHw1 (addNodeHw1 (emptyHw1 Unit Unit 0) () ()).1 () ()).1

/-- A fresh hw1 graph after one `add_node` call, and the handle that call
returned. -/
def oneNodeHw1 : GraphHw1 Unit Unit × NodeH :=
  addNodeHw1 (emptyHw1 Unit Unit 0) () ()

/-- C1.  The claim fails on the code: on the graph built by two `add_node`
calls and no `add_edge` call, `edge_begin() = (0,0)` differs from
`edge_end() = (2,0)`, so the enumeration visits position `(0,0)` — the
source never advances `edge_begin()` past entries failing the
lesser-endpoint test — and yields one element, although `num_edges()` is
0; dereferencing that element reads `m_adjacency[0][0]` of an empty row,
an out-of-bounds access. -/
theorem edgeIterator_two_node_divergence :
    numEdgesHw1 twoNodesHw1 = 0 ∧
    edgeBeginHw1 ≠ edgeEndHw1 twoNodesHw1.adjacency ∧
    edgePositionsHw1 twoNodesHw1.adjacency = [(0, 0)] ∧
    edgeDerefHw1 twoNodesHw1.adjacency (0, 0) = none := by
  decide

/-- The 20862 graph after two `add_node` calls, with the two returned
handles. -/
def twoNodesG862 : GraphG862 Unit × NodeG862 × NodeG862 :=
  let r0 := addNodeG862 (emptyG862 Unit 0) ()
  let r1 := addNodeG862 r0.1 ()
  (r1.1, r0.2, r1.2)

/-- The 20862 state after additionally calling `add_edge(n0, n1)`, with
the Edge handle that call returned. -/
def oneEdgeG862 : GraphG862 Unit × EdgeG862 :=
  addEdgeG862 twoNodesG862.1 twoNodesG862.2.1 twoNodesG862.2.2

/-- The result of the reversed duplicate call `add_edge(n1, n0)` on the
one-edge 20862 graph. -/
def reversedAddEdgeG862 : GraphG862 Unit × EdgeG862 :=
  addEdgeG862 oneEdgeG862.1 twoNodesG862.2.2 twoNodesG862.2.1

/-- C2.  The claim holds up to the returned handle but fails there on
hw0/Graph-20862: after `add_edge(n0, n1)` returned the Edge with
identifier 0, the reversed duplicate call `add_edge(n1, n0)` finds the
existing pair with its second search yet computes the returned index from
the first (failed) search iterator, producing the non-sentinel handle
with identifier `Edges.size() = 1` — a nonexistent edge — instead of an
Edge equal to the first; `num_edges()` stays 1, and comparing the two
handles dereferences `Edges[1]` out of bounds. -/
theorem addEdge_reversed_duplicate_bogus_handle_G862 :
    oneEdgeG862.2 = { graph := some 0, id := 0 } ∧
    numEdgesG862 reversedAddEdgeG862.1 = numEdgesG862 oneEdgeG862.1 ∧
    reversedAddEdgeG862.2 = { graph := some 0, id := 1 } ∧
    reversedAddEdgeG862.2 ≠ invalidEdgeG862 ∧
    ¬ reversedAddEdgeG862.2.id < numEdgesG862 reversedAddEdgeG862.1 ∧
    edgeNode1G862 reversedAddEdgeG862.1 reversedAddEdgeG862.2 = none := by
  decide

/-- C9.  On hw0/Graph-20862 the out-of-range policies of `node(i)` and
`edge(i)` mix: with two nodes and one edge, `node(num_nodes())` returns
the invalid sentinel, but `edge(num_edges())` — out of range, since the
guard is the strict `i > Edges.size()` where `node` uses `>=` — returns
the non-sentinel handle with identifier 1, whose endpoint lookup
dereferences `Edges[1]` out of bounds. -/
theorem node_edge_out_of_range_policy_mixture_G862 :
    nodeG862 oneEdgeG862.1 (numNodesG862 oneEdgeG862.1) = invalidNodeG862 ∧
    edgeG862 oneEdgeG862.1 (numEdgesG862 oneEdgeG862.1)
      = { graph := some 0, id := 1 } ∧
    edgeG862 oneEdgeG862.1 (numEdgesG862 oneEdgeG862.1) ≠ invalidEdgeG862 ∧
    edgeNode1G862 oneEdgeG862.1
      (edgeG862 oneEdgeG862.1 (numEdgesG862 oneEdgeG862.1)) = none := by
  decide

/-- Appending one entry to the row at an in-range index grows the total
adjacency-entry count by exactly one. -/
lemma sum_map_length_set (l : List (List Nat)) (i v : Nat) (h : i < l.length) :
    (((l.set i ((l.getD i []) ++ [v])).map List.length).sum)
      = ((l.map List.length).sum) + 1 := by
  induction l generalizing i with
  | nil => simp at h
  | cons hd tl ih =>
    cases i with
    | zero => simp [List.getD_cons_zero]; omega
    | succ n =>
      have hn : n < tl.length := by simpa using h
      simp only [List.set_cons_succ, List.getD_cons_succ, List.map_cons, List.sum_cons]
      rw [ih n hn]
      omega

/-- C3 counterexample.  On hw1/Graph-26021, `add_edge(a, a)` on a
one-node graph is not rejected: it pushes the node onto its own adjacency
row twice, `num_edges()` rises from 0 to 1, and the returned Edge is the
non-sentinel `Edge(this, 0, 0)`. -/
theorem selfLoop_increases_numEdges_Hw1 :
    numEdgesHw1 oneNodeHw1.1 = 0 ∧
    numEdgesHw1 (addEdgeHw1 oneNodeHw1.1 oneNodeHw1.2 oneNodeHw1.2).1 = 1 ∧
    (addEdgeHw1 oneNodeHw1.1 oneNodeHw1.2 oneNodeHw1.2).2
      = { gid := 0, n1 := 0, n2 := 0 } := by
  decide

/-- C3 amended.  Self-loop handling differs per implementation: in
hw0/Graph-1703, `add_edge(a, a)` returns the invalid Edge sentinel and
leaves the graph (hence `num_edges()`) unchanged, for every handle `a`;
in hw1/Graph-26021 there is no self-loop check — for a valid node `a`
with no recorded self-loop, `add_edge(a, a)` increases `num_edges()` by
exactly 1 and returns the non-sentinel `Edge(this, a.index(), a.index())`. -/
theorem selfLoop_policy_amended :
    (∀ (P : Type) (g : GraphG1703 P) (a : NodeH),
        addEdgeG1703 g a a = (g, EdgeG1703.invalid)) ∧
    (∀ (P V : Type) (g : GraphHw1 P V) (a : NodeH),
        a.gid = g.gid → a.idx < g.adjacency.length →
        (g.adjacency.getD a.idx []).contains a.idx = false →
        numEdgesHw1 (addEdgeHw1 g a a).1 = numEdgesHw1 g + 1 ∧
        (addEdgeHw1 g a a).2 = { gid := g.gid, n1 := a.idx, n2 := a.idx }) := by
  constructor
  · intro P g a
    simp [addEdgeG1703, nodeEqG1703]
  · intro P V g a hg hlt hc
    have hcond : ((a.gid == g.gid && a.gid == g.gid)
        && (g.adjacency.getD a.idx []).contains a.idx) = false := by
      rw [hc, Bool.and_false]
    constructor
    · show numEdgesHw1 (addEdgeHw1 g a a).1 = numEdgesHw1 g + 1
      simp only [addEdgeHw1, hcond, Bool.false_eq_true, if_false]
      have h1 : (((g.adjacency.set a.idx ((g.adjacency.getD a.idx []) ++ [a.idx])).map
          List.length).sum) = ((g.adjacency.map List.length).sum) + 1 :=
        sum_map_length_set g.adjacency a.idx a.idx hlt
      have hlen : (g.adjacency.set a.idx
          ((g.adjacency.getD a.idx []) ++ [a.idx])).length = g.adjacency.length := by
        simp
      have h2 : ((((g.adjacency.set a.idx ((g.adjacency.getD a.idx []) ++ [a.idx])).set
          a.idx (((g.adjacency.set a.idx ((g.adjacency.getD a.idx []) ++ [a.idx])).getD
            a.idx []) ++ [a.idx])).map List.length).sum)
          = (((g.adjacency.set a.idx ((g.adjacency.getD a.idx []) ++ [a.idx])).map
              List.length).sum) + 1 :=
        sum_map_length_set _ a.idx a.idx (by rw [hlen]; exact hlt)
      simp only [numEdgesHw1, h2, h1]
      omega
    · simp only [addEdgeHw1, hcond, Bool.false_eq_true, if_false]

/-- Witness for the amended self-loop theorem at the concrete one-node
hw1 graph. -/
theorem selfLoop_policy_amended_witness :
    numEdgesHw1 (addEdgeHw1 oneNodeHw1.1 oneNodeHw1.2 oneNodeHw1.2).1
      = numEdgesHw1 oneNodeHw1.1 + 1 :=
  (selfLoop_policy_amended.2 Unit Unit oneNodeHw1.1 oneNodeHw1.2
    (by decide) (by decide) (by decide)).1

/-- A 1703 graph with identity 0, two nodes, and the Edge returned by
`add_edge(node 0, node 1)`. -/
def oneEdgeGraphA1703 : GraphG1703 Unit × EdgeG1703 :=
  let r0 := addNodeG1703 (emptyG1703 Unit 0) ()
  let r1 := addNodeG1703 r0.1 ()
  addEdgeG1703 r1.1 r0.2 r1.2

/-- A second, distinct 1703 graph (identity 1) built the same way. -/
def oneEdgeGraphB1703 : GraphG1703 Unit × EdgeG1703 :=
  let r0 := addNodeG1703 (emptyG1703 Unit 1) ()
  let r1 := addNodeG1703 r0.1 ()
  addEdgeG1703 r1.1 r0.2 r1.2

/-- C4 counterexample.  In hw0/Graph-1703, the Edge handles returned by
`add_edge` on two different Graph instances (identities 0 and 1) carry
the same edge identifier and therefore compare equal under
`Edge::operator==` — which reads only `edgeid_` — contradicting the
requirement that handles from different graphs always compare unequal. -/
theorem edgeEq_cross_graph_equal_G1703 :
    oneEdgeGraphA1703.2 = EdgeG1703.valid 0 2 0 1 ∧
    oneEdgeGraphB1703.2 = EdgeG1703.valid 1 2 0 1 ∧
    edgeEqG1703 oneEdgeGraphA1703.2 oneEdgeGraphB1703.2 = some true := by
  decide

/-- C4 amended.  Edge-handle equality differs per implementation: in
hw0/Graph-1703 two constructed Edge handles compare equal exactly when
their stored edge identifiers coincide, with both graph identities and
both endpoint fields ignored; in hw1/Graph-26021, for an edge `d` owned
by graph `g` and any edge `e` whose endpoint indices are within `g`'s
bounds (so the comparison completes without tripping the `has_node`
assertion), equality holds exactly when `e` carries the same graph and
the same unordered endpoint pair — so hw1 cross-graph handles compare
unequal, as the claim requires, while 1703 ones need not. -/
theorem edgeEq_characterization_amended :
    (∀ (g1 i1 a1 b1 g2 i2 a2 b2 : Nat),
        edgeEqG1703 (EdgeG1703.valid g1 i1 a1 b1) (EdgeG1703.valid g2 i2 a2 b2)
          = some true ↔ i1 = i2) ∧
    (∀ (P V : Type) (g : GraphHw1 P V) (d e : EdgeHw1),
        d.gid = g.gid → e.n1 < sizeHw1 g → e.n2 < sizeHw1 g →
        (edgeEqHw1 g d e = some true ↔
          e.gid = d.gid ∧
            ((d.n1 = e.n1 ∧ d.n2 = e.n2) ∨ (d.n1 = e.n2 ∧ d.n2 = e.n1)))) := by
  constructor
  · intro g1 i1 a1 b1 g2 i2 a2 b2
    simp [edgeEqG1703]
  · intro P V g d e hd h1 h2
    have q11 : nodeEqHw1 g (edgeNode1Hw1 d) (edgeNode1Hw1 e)
        = some ((e.gid == g.gid) && (d.n1 == e.n1)) := by
      simp [nodeEqHw1, hasNodeHw1, edgeNode1Hw1, h1]
    have q12 : nodeEqHw1 g (edgeNode2Hw1 d) (edgeNode2Hw1 e)
        = some ((e.gid == g.gid) && (d.n2 == e.n2)) := by
      simp [nodeEqHw1, hasNodeHw1, edgeNode2Hw1, h2]
    have q21 : nodeEqHw1 g (edgeNode1Hw1 d) (edgeNode2Hw1 e)
        = some ((e.gid == g.gid) && (d.n1 == e.n2)) := by
      simp [nodeEqHw1, hasNodeHw1, edgeNode1Hw1, edgeNode2Hw1, h2]
    have q22 : nodeEqHw1 g (edgeNode2Hw1 d) (edgeNode1Hw1 e)
        = some ((e.gid == g.gid) && (d.n2 == e.n1)) := by
      simp [nodeEqHw1, hasNodeHw1, edgeNode1Hw1, edgeNode2Hw1, h1]
    have hA : optAnd (nodeEqHw1 g (edgeNode1Hw1 d) (edgeNode1Hw1 e))
        (fun _ => nodeEqHw1 g (edgeNode2Hw1 d) (edgeNode2Hw1 e))
        = some (((e.gid == g.gid) && (d.n1 == e.n1))
            && ((e.gid == g.gid) && (d.n2 == e.n2))) := by
      rw [q11]; exact optAnd_some _ _ _ q12
    have hB : optAnd (nodeEqHw1 g (edgeNode1Hw1 d) (edgeNode2Hw1 e))
        (fun _ => nodeEqHw1 g (edgeNode2Hw1 d) (edgeNode1Hw1 e))
        = some (((e.gid == g.gid) && (d.n1 == e.n2))
            && ((e.gid == g.gid) && (d.n2 == e.n1))) := by
      rw [q21]; exact optAnd_some _ _ _ q22
    have hC : edgeEqHw1 g d e
        = some ((((e.gid == g.gid) && (d.n1 == e.n1))
              && ((e.gid == g.gid) && (d.n2 == e.n2)))
            || (((e.gid == g.gid) && (d.n1 == e.n2))
              && ((e.gid == g.gid) && (d.n2 == e.n1)))) := by
      rw [edgeEqHw1, hA]; exact optOr_some _ _ _ hB
    rw [hC, ← hd]
    simp only [Option.some.injEq, Bool.or_eq_true, Bool.and_eq_true, beq_iff_eq]
    tauto

/-- Witness for the amended edge-equality theorem: in the two-node hw1
graph, the handles `Edge(this, 0, 1)` and `Edge(this, 1, 0)` compare
equal. -/
theorem edgeEq_characterization_amended_witness :
    edgeEqHw1 twoNodesHw1 { gid := 0, n1 := 0, n2 := 1 }
      { gid := 0, n1 := 1, n2 := 0 } = some true :=
  (edgeEq_characterization_amended.2 Unit Unit twoNodesHw1
      { gid := 0, n1 := 0, n2 := 1 } { gid := 0, n1 := 1, n2 := 0 }
      (by decide) (by decide) (by decide)).mpr
    (by exact ⟨rfl, Or.inr ⟨rfl, rfl⟩⟩)

/-- A 1703 graph built by two `add_node` calls and then `clear()`; the
second `add_node` returned the handle with identifier 1, now stale. -/
def clearedG1703 : GraphG1703 Unit :=
  clearG1703 (addNodeG1703 (addNodeG1703 (emptyG1703 Unit 0) ()).1 ()).1

/-- C5 counterexample.  In hw0/Graph-1703, after `clear()` the stale
handle with identifier 1 — returned by the second `add_node` — is out of
bounds (`num_nodes()` is 0), yet `has_node` still returns true, because
the implementation checks only graph ownership. -/
theorem hasNode_stale_handle_true_G1703 :
    (addNodeG1703 (addNodeG1703 (emptyG1703 Unit 0) ()).1 ()).2
      = { gid := 0, idx := 1 } ∧
    numNodesG1703 clearedG1703 = 0 ∧
    hasNodeG1703 clearedG1703 { gid := 0, idx := 1 } = true := by
  decide

/-- C5 amended.  The `has_node` behaviours per implementation: 1703
checks only ownership (so stale out-of-bounds handles of the same graph
still test true); 20862 compares `node(n.index())` with `n`, which for an
in-bounds identifier amounts to the ownership test and for an
out-of-bounds identifier compares against the invalid sentinel (so the
default-constructed handle tests true as well); hw1 asserts the
identifier is in bounds — aborting otherwise — and then checks only
ownership. -/
theorem hasNode_characterization_amended :
    (∀ (P : Type) (g : GraphG1703 P) (n : NodeH),
        hasNodeG1703 g n = true ↔ n.gid = g.gid) ∧
    (∀ (P : Type) (g : GraphG862 P) (n : NodeG862),
        hasNodeG862 g n = true ↔
          ((n.id < numNodesG862 g ∧ n.graph = some g.gid)
            ∨ (¬ n.id < numNodesG862 g ∧ n.graph = none ∧ n.id = 4294967295))) ∧
    (∀ (P V : Type) (g : GraphHw1 P V) (n : NodeH),
        (n.idx < numNodesHw1 g →
          (hasNodeHw1 g n = some true ↔ n.gid = g.gid)) ∧
        (¬ n.idx < numNodesHw1 g → hasNodeHw1 g n = none)) := by
  refine ⟨?_, ?_, ?_⟩
  · intro P g n
    simp [hasNodeG1703]
  · intro P g n
    by_cases h : n.id < numNodesG862 g
    · have h2 : n.id < g.points.length := h
      simp [hasNodeG862, nodeG862, nodeEqG862, invalidNodeG862, numNodesG862,
        sizeG862, h2]
    · have h2 : ¬ n.id < g.points.length := h
      simp [hasNodeG862, nodeG862, nodeEqG862, invalidNodeG862, numNodesG862,
        sizeG862, h2]
  · intro P V g n
    constructor
    · intro h
      simp only [numNodesHw1] at h
      simp [hasNodeHw1, h]
    · intro h
      simp only [numNodesHw1] at h
      simp [hasNodeHw1, h]

/-- Witness for the amended `has_node` theorem: on the two-node 20862
graph, the in-bounds handle owned by the graph tests true. -/
theorem hasNode_characterization_amended_witness :
    hasNodeG862 twoNodesG862.1 { graph := some 0, id := 0 } = true :=
  (hasNode_characterization_amended.2.1 Unit twoNodesG862.1
      { graph := some 0, id := 0 }).mpr
    (Or.inl ⟨by decide, by decide⟩)

/-- A sequence of hw1 `add_node` calls, returning the final graph and the
list of returned handles in call order. -/
def addNodesHw1 : GraphHw1 P V → List (P × V) → GraphHw1 P V × List NodeH
  | g, [] => (g, [])
  | g, pv :: rest =>
    let r := addNodeHw1 g pv.1 pv.2
    let r2 := addNodesHw1 r.1 rest
    (r2.1, r.2 :: r2.2)

/-- A sequence of 20558 `add_node` calls. -/
def addNodesG20558 : GraphG20558 P → List P → GraphG20558 P × List NodeH
  | g, [] => (g, [])
  | g, p :: rest =>
    let r := addNodeG20558 g p
    let r2 := addNodesG20558 r.1 rest
    (r2.1, r.2 :: r2.2)

/-- Each hw1 `add_node` call adds exactly one to the node count, so a
sequence of calls adds its length. -/
lemma addNodesHw1_numNodes (ps : List (P × V)) :
    ∀ g : GraphHw1 P V,
      numNodesHw1 (addNodesHw1 g ps).1 = numNodesHw1 g + ps.length := by
  induction ps with
  | nil => intro g; simp [addNodesHw1]
  | cons pv rest ih =>
    intro g
    show numNodesHw1 (addNodesHw1 (addNodeHw1 g pv.1 pv.2).1 rest).1
      = numNodesHw1 g + (pv :: rest).length
    rw [ih]
    simp [addNodeHw1, numNodesHw1, sizeHw1] <;> omega

/-- The i-th handle returned by a sequence of hw1 `add_node` calls
carries index `numNodes g + i`. -/
lemma addNodesHw1_handle (ps : List (P × V)) :
    ∀ (g : GraphHw1 P V) (i : Nat), i < ps.length →
      ((addNodesHw1 g ps).2.getD i { gid := 0, idx := 0 }).idx
        = numNodesHw1 g + i := by
  induction ps with
  | nil => intro g i h; simp at h
  | cons pv rest ih =>
    intro g i h
    cases i with
    | zero =>
      simp [addNodesHw1, addNodeHw1, numNodesHw1, sizeHw1]
    | succ n =>
      have hn : n < rest.length := by simpa using h
      show ((addNodesHw1 (addNodeHw1 g pv.1 pv.2).1 rest).2.getD n
          { gid := 0, idx := 0 }).idx = numNodesHw1 g + (n + 1)
      rw [ih _ n hn]
      simp [addNodeHw1, numNodesHw1, sizeHw1] <;> omega

/-- Each 20558 `add_node` call adds exactly one to the node count. -/
lemma addNodesG20558_numNodes (ps : List P) :
    ∀ g : GraphG20558 P,
      numNodesG20558 (addNodesG20558 g ps).1 = numNodesG20558 g + ps.length := by
  induction ps with
  | nil => intro g; simp [addNodesG20558]
  | cons p rest ih =>
    intro g
    show numNodesG20558 (addNodesG20558 (addNodeG20558 g p).1 rest).1
      = numNodesG20558 g + (p :: rest).length
    rw [ih]
    simp [addNodeG20558, numNodesG20558, sizeG20558] <;> omega

/-- The i-th handle returned by a sequence of 20558 `add_node` calls
carries index `numNodes g + i`. -/
lemma addNodesG20558_handle (ps : List P) :
    ∀ (g : GraphG20558 P) (i : Nat), i < ps.length →
      ((addNodesG20558 g ps).2.getD i { gid := 0, idx := 0 }).idx
        = numNodesG20558 g + i := by
  induction ps with
  | nil => intro g i h; simp at h
  | cons p rest ih =>
    intro g i h
    cases i with
    | zero =>
      simp [addNodesG20558, addNodeG20558, numNodesG20558, sizeG20558]
    | succ n =>
      have hn : n < rest.length := by simpa using h
      show ((addNodesG20558 (addNodeG20558 g p).1 rest).2.getD n
          { gid := 0, idx := 0 }).idx = numNodesG20558 g + (n + 1)
      rw [ih _ n hn]
      simp [addNodeG20558, numNodesG20558, sizeG20558] <;> omega

/-- C6.  In hw1/Graph-26021 and hw0/Graph-20558, starting from a state
with zero nodes (fresh construction or just after `clear()`), the k-th
`add_node` call returns a handle with index `k - 1`, the node count after
the k-th call is `k`, and each single `add_node` call increases
`num_nodes()` by exactly 1. -/
theorem addNode_index_count :
    (∀ (P V : Type) (g : GraphHw1 P V) (ps : List (P × V)) (k : Nat),
        numNodesHw1 g = 0 → 1 ≤ k → k ≤ ps.length →
        ((addNodesHw1 g ps).2.getD (k - 1) { gid := 0, idx := 0 }).idx = k - 1 ∧
        numNodesHw1 (addNodesHw1 g (ps.take k)).1 = k) ∧
    (∀ (P V : Type) (g : GraphHw1 P V) (p : P) (v : V),
        numNodesHw1 (addNodeHw1 g p v).1 = numNodesHw1 g + 1) ∧
    (∀ (P : Type) (g : GraphG20558 P) (ps : List P) (k : Nat),
        numNodesG20558 g = 0 → 1 ≤ k → k ≤ ps.length →
        ((addNodesG20558 g ps).2.getD (k - 1) { gid := 0, idx := 0 }).idx = k - 1 ∧
        numNodesG20558 (addNodesG20558 g (ps.take k)).1 = k) ∧
    (∀ (P : Type) (g : GraphG20558 P) (p : P),
        numNodesG20558 (addNodeG20558 g p).1 = numNodesG20558 g + 1) := by
  refine ⟨?_, ?_, ?_, ?_⟩
  · intro P V g ps k h0 h1 h2
    constructor
    · rw [addNodesHw1_handle ps g (k - 1) (by omega), h0]
      omega
    · rw [addNodesHw1_numNodes, h0]
      simp [List.length_take]
      omega
  · intro P V g p v
    simp [addNodeHw1, numNodesHw1, sizeHw1]
  · intro P g ps k h0 h1 h2
    constructor
    · rw [addNodesG20558_handle ps g (k - 1) (by omega), h0]
      omega
    · rw [addNodesG20558_numNodes, h0]
      simp [List.length_take]
      omega
  · intro P g p
    simp [addNodeG20558, numNodesG20558, sizeG20558]

/-- Witness for the `add_node` indexing theorem: one call on a fresh hw1
graph returns the handle with index 0. -/
theorem addNode_index_count_witness :
    ((addNodesHw1 (emptyHw1 Unit Unit 0) [((), ())]).2.getD 0
      { gid := 0, idx := 0 }).idx = 0 :=
  (addNode_index_count.1 Unit Unit (emptyHw1 Unit Unit 0) [((), ())] 1
    (by decide) (by decide) (by decide)).1

/-- C7.  In hw1/Graph-26021 and hw0/Graph-1703, `clear()` leaves
`num_nodes() = 0` and `num_edges() = 0`, and the next `add_node` call
returns a handle with identifier 0. -/
theorem clear_resets_and_reissues_zero :
    (∀ (P V : Type) (g : GraphHw1 P V) (p : P) (v : V),
        numNodesHw1 (clearHw1 g) = 0 ∧ numEdgesHw1 (clearHw1 g) = 0 ∧
        (addNodeHw1 (clearHw1 g) p v).2 = { gid := g.gid, idx := 0 }) ∧
    (∀ (P : Type) (g : GraphG1703 P) (p : P),
        numNodesG1703 (clearG1703 g) = 0 ∧ numEdgesG1703 (clearG1703 g) = 0 ∧
        (addNodeG1703 (clearG1703 g) p).2 = { gid := g.gid, idx := 0 }) := by
  constructor
  · intro P V g p v
    refine ⟨rfl, ?_, rfl⟩
    simp [numEdgesHw1, clearHw1]
  · intro P g p
    exact ⟨rfl, rfl, rfl⟩

/-- The symmetry invariant of the hw1 adjacency structure: `j` occurs in
node `i`'s row exactly when `i` occurs in node `j`'s row (rows beyond the
vector are read as empty, as an out-of-range row cannot be observed). -/
def SymmAdj (adj : List (List Nat)) : Prop :=
  ∀ i j : Nat, j ∈ adj.getD i [] ↔ i ∈ adj.getD j []

/-- Reading any row of the empty adjacency vector gives the empty row. -/
lemma getD_nil_row (i : Nat) : ([] : List (List Nat)).getD i [] = [] := by
  cases i <;> rfl

/-- Appending an empty row changes no row read. -/
lemma getD_append_nil_row :
    ∀ (l : List (List Nat)) (i : Nat), (l ++ [[]]).getD i [] = l.getD i [] := by
  intro l
  induction l with
  | nil => intro i; cases i with
    | zero => rfl
    | succ n => cases n <;> rfl
  | cons hd tl ih =>
    intro i
    cases i with
    | zero => rfl
    | succ n =>
      simp only [List.cons_append, List.getD_cons_succ]
      exact ih n

/-- Reading the row just overwritten by `set` at an in-range index. -/
lemma getD_set_sameidx :
    ∀ (l : List (List Nat)) (i : Nat) (x : List Nat), i < l.length →
      (l.set i x).getD i [] = x := by
  intro l
  induction l with
  | nil => intro i x h; simp at h
  | cons hd tl ih =>
    intro i x h
    cases i with
    | zero => rfl
    | succ n =>
      simp only [List.set_cons_succ, List.getD_cons_succ]
      exact ih n x (by simpa using h)

/-- Reading any other row is unchanged by `set`. -/
lemma getD_set_other :
    ∀ (l : List (List Nat)) (i k : Nat) (x : List Nat), i ≠ k →
      (l.set i x).getD k [] = l.getD k [] := by
  intro l
  induction l with
  | nil => intro i k x _; rfl
  | cons hd tl ih =>
    intro i k x hik
    cases i with
    | zero =>
      cases k with
      | zero => exact absurd rfl hik
      | succ m => rfl
    | succ n =>
      cases k with
      | zero => rfl
      | succ m =>
        simp only [List.set_cons_succ, List.getD_cons_succ]
        exact ih n m x (fun he => hik (by rw [he]))

/-- Membership in a row after appending one entry to the row at an
in-range index `i`: the old membership, or the new entry at row `i`. -/
lemma mem_getD_set_append (l : List (List Nat)) (i v : Nat) (h : i < l.length)
    (k x : Nat) :
    x ∈ (l.set i ((l.getD i []) ++ [v])).getD k []
      ↔ x ∈ l.getD k [] ∨ (k = i ∧ x = v) := by
  by_cases hk : k = i
  · subst hk
    rw [getD_set_sameidx l k _ h]
    simp
  · rw [getD_set_other l i k _ (fun he => hk he.symm)]
    simp [hk]

/-- C8.  The symmetric-adjacency invariant of hw1/Graph-26021 holds of
the empty graph and is preserved by `add_node` (which appends an empty
row), by `add_edge` on in-range endpoints (which either leaves the state
unchanged or inserts both directions within the one call), and by
`clear()`. -/
theorem adjacency_symmetry_invariant :
    (∀ (P V : Type) (gid : Nat), SymmAdj (emptyHw1 P V gid).adjacency) ∧
    (∀ (P V : Type) (g : GraphHw1 P V) (p : P) (v : V),
        SymmAdj g.adjacency → SymmAdj (addNodeHw1 g p v).1.adjacency) ∧
    (∀ (P V : Type) (g : GraphHw1 P V) (a b : NodeH),
        a.idx < g.adjacency.length → b.idx < g.adjacency.length →
        SymmAdj g.adjacency → SymmAdj (addEdgeHw1 g a b).1.adjacency) ∧
    (∀ (P V : Type) (g : GraphHw1 P V), SymmAdj (clearHw1 g).adjacency) := by
  refine ⟨?_, ?_, ?_, ?_⟩
  · intro P V gid i j
    rw [show (emptyHw1 P V gid).adjacency = [] from rfl, getD_nil_row,
      getD_nil_row]
    simp
  · intro P V g p v hS i j
    rw [show (addNodeHw1 g p v).1.adjacency = g.adjacency ++ [[]] from rfl,
      getD_append_nil_row, getD_append_nil_row]
    exact hS i j
  · intro P V g a b ha hb hS
    unfold addEdgeHw1
    split
    · exact hS
    · intro i j
      have hb1 : b.idx < (g.adjacency.set b.idx
          ((g.adjacency.getD b.idx []) ++ [a.idx])).length := by
        rw [List.length_set]; exact hb
      have ha1 : a.idx < (g.adjacency.set b.idx
          ((g.adjacency.getD b.idx []) ++ [a.idx])).length := by
        rw [List.length_set]; exact ha
      show j ∈ ((g.adjacency.set b.idx ((g.adjacency.getD b.idx []) ++ [a.idx])).set
          a.idx (((g.adjacency.set b.idx ((g.adjacency.getD b.idx []) ++ [a.idx])).getD
            a.idx []) ++ [b.idx])).getD i [] ↔
        i ∈ ((g.adjacency.set b.idx ((g.adjacency.getD b.idx []) ++ [a.idx])).set
          a.idx (((g.adjacency.set b.idx ((g.adjacency.getD b.idx []) ++ [a.idx])).getD
            a.idx []) ++ [b.idx])).getD j []
      rw [mem_getD_set_append _ _ _ ha1, mem_getD_set_append _ _ _ ha1,
        mem_getD_set_append _ _ _ hb, mem_getD_set_append _ _ _ hb]
      have := hS i j
      tauto
  · intro P V g i j
    rw [show (clearHw1 g).adjacency = [] from rfl, getD_nil_row, getD_nil_row]
    simp

/-- Any row read of the two-empty-row adjacency vector is empty. -/
lemma getD_two_empty_rows (i : Nat) :
    ([[], []] : List (List Nat)).getD i [] = [] := by
  match i with
  | 0 => rfl
  | 1 => rfl
  | n + 2 => rfl

/-- Witness for the symmetry-invariant theorem: `add_edge(node 0, node 1)`
on the fresh two-node hw1 graph preserves the invariant. -/
theorem adjacency_symmetry_invariant_witness :
    SymmAdj (addEdgeHw1 twoNodesHw1 { gid := 0, idx := 0 }
      { gid := 0, idx := 1 }).1.adjacency :=
  adjacency_symmetry_invariant.2.2.1 Unit Unit twoNodesHw1
    { gid := 0, idx := 0 } { gid := 0, idx := 1 } (by decide) (by decide)
    (fun i j => by
      rw [show twoNodesHw1.adjacency = [[], []] from rfl,
        getD_two_empty_rows, getD_two_empty_rows]
      simp)

/-- Both branches of hw1 `add_edge` return `Edge(this, a.index(), b.index())`. -/
lemma addEdgeHw1_snd (g : GraphHw1 P V) (a b : NodeH) :
    (addEdgeHw1 g a b).2 = { gid := g.gid, n1 := a.idx, n2 := b.idx } := by
  unfold addEdgeHw1
  split <;> rfl

/-- Neither branch of hw1 `add_edge` touches the node storage. -/
lemma addEdgeHw1_graphNodes (g : GraphHw1 P V) (a b : NodeH) :
    (addEdgeHw1 g a b).1.graphNodes = g.graphNodes := by
  unfold addEdgeHw1
  split <;> rfl

/-- Neither branch of hw1 `add_edge` changes the graph identity. -/
lemma addEdgeHw1_gid (g : GraphHw1 P V) (a b : NodeH) :
    (addEdgeHw1 g a b).1.gid = g.gid := by
  unfold addEdgeHw1
  split <;> rfl

/-- C10.  In hw1/Graph-26021, for distinct valid nodes `a` and `b` the
Edge returned by `add_edge(a, b)` satisfies `node1() == a` and
`node2() == b` under the post-state node equality, in both the
already-connected branch and the new-edge branch, since both return
`Edge(this, a.index(), b.index())`. -/
theorem addEdge_endpoint_order :
    ∀ (P V : Type) (g : GraphHw1 P V) (a b : NodeH),
      a.gid = g.gid → b.gid = g.gid →
      a.idx < numNodesHw1 g → b.idx < numNodesHw1 g → a.idx ≠ b.idx →
      nodeEqHw1 (addEdgeHw1 g a b).1
        (edgeNode1Hw1 (addEdgeHw1 g a b).2) a = some true ∧
      nodeEqHw1 (addEdgeHw1 g a b).1
        (edgeNode2Hw1 (addEdgeHw1 g a b).2) b = some true := by
  intro P V g a b hga hgb ha hb hne
  have hsize : sizeHw1 (addEdgeHw1 g a b).1 = sizeHw1 g := by
    simp [sizeHw1, addEdgeHw1_graphNodes]
  have ha2 : a.idx < sizeHw1 (addEdgeHw1 g a b).1 := by
    rw [hsize]; exact ha
  have hb2 : b.idx < sizeHw1 (addEdgeHw1 g a b).1 := by
    rw [hsize]; exact hb
  constructor
  · rw [addEdgeHw1_snd]
    simp [nodeEqHw1, hasNodeHw1, edgeNode1Hw1, ha2, addEdgeHw1_gid, hga]
  · rw [addEdgeHw1_snd]
    simp [nodeEqHw1, hasNodeHw1, edgeNode2Hw1, hb2, addEdgeHw1_gid, hgb]

/-- Witness for the endpoint-order theorem on the fresh two-node hw1
graph. -/
theorem addEdge_endpoint_order_witness :
    nodeEqHw1 (addEdgeHw1 twoNodesHw1 { gid := 0, idx := 0 }
        { gid := 0, idx := 1 }).1
      (edgeNode1Hw1 (addEdgeHw1 twoNodesHw1 { gid := 0, idx := 0 }
        { gid := 0, idx := 1 }).2)
      { gid := 0, idx := 0 } = some true :=
  (addEdge_endpoint_order Unit Unit twoNodesHw1
    { gid := 0, idx := 0 } { gid := 0, idx := 1 }
    (by decide) (by decide) (by decide) (by decide) (by decide)).1
